import Mathlib

/-!
# Verification of the scroll-phased cube choreography core

Shallow embedding of the Rubik's-cube hero scene of the drama-website
repository: the grid builder, the icon texture generator, the scroll
timelines (tl1/tl2/tl3) and the per-frame physics loop, together with
proofs of the behavioural properties claimed for them.

Sources embedded:
- the RubiksCube scene component (grid builder `slices`, physics `useFrame`
  loop, scroll timelines tl1/tl2/tl3);
- `src/config/cubeTheme.ts` (all numeric constants);
- `src/config/cubeIcons.ts` (CENTER_FACE_ICONS);
- `src/utils/createIconTexture.ts` (canvas icon generator; the canvas 2D
  context is modelled as a boolean capability and the drawing surface as a
  trace of drawing commands).

Numeric conventions: grid-construction data is exact rational arithmetic
(`ℚ`); run-time choreography and physics, which use square roots and
trigonometry, are embedded over `ℝ`.  JavaScript number semantics
(binary64) are idealised as exact real arithmetic.
-/

namespace DramaCube

/-! ## Icon registry (src/config/cubeIcons.ts) -/

/-- The six glyph identifiers of the icon registry (`IconType`). -/
inductive IconTy
  | neuralNetwork
  | codeBrackets
  | brain
  | dataFlow
  | circuit
  | cube3d
  deriving DecidableEq, Repr

/-- The five named cube faces that carry an icon (`CubeFace`). -/
inductive Face
  | front
  | back
  | top
  | right
  | left
  deriving DecidableEq, Repr

/-- `CENTER_FACE_ICONS`: the fixed face-to-glyph mapping. -/
def centerFaceIcons : Face → IconTy
  | .front => .neuralNetwork
  | .back  => .codeBrackets
  | .top   => .brain
  | .right => .dataFlow
  | .left  => .circuit

/-! ## Grid builder (`slices` useMemo of the RubiksCube component) -/

/-- Horizontal slice membership (`layer` field of `CubeData`). -/
inductive Layer
  | top
  | mid
  | bot
  deriving DecidableEq, Repr

/-- One piece descriptor (`CubeData` of src/types/cube.ts). -/
structure CubeData where
  id : String
  localPosition : ℚ × ℚ × ℚ
  color : String
  iconType : Option IconTy
  layer : Layer
  deriving DecidableEq, Repr

instance : Inhabited CubeData :=
  ⟨⟨"", (0, 0, 0), "", none, .mid⟩⟩

/-- `CUBE_THEME.cubeColors`: the six-entry random colour palette. -/
def cubeColors : List String :=
  ["#00f5d4", "#f72585", "#7b2cbf", "#1a1a24", "#adb5bd", "#f8f9fa"]

/-- `CUBE_THEME.structure.gap`. -/
def gap : ℚ := 1.05

/-- The id string of the piece at grid coordinates (x, y, z):
the template literal of the grid loop. -/
def encodeId (x y z : ℤ) : String :=
  toString x ++ "-" ++ toString y ++ "-" ++ toString z

/-- Icon assignment of the grid loop: the if/else-if chain keyed on the
coordinates, via `CENTER_FACE_ICONS`. -/
def iconFor (x y z : ℤ) : Option IconTy :=
  if z = 1 ∧ x = 0 ∧ y = 0 then some (centerFaceIcons .front)
  else if z = -1 ∧ x = 0 ∧ y = 0 then some (centerFaceIcons .back)
  else if y = 1 ∧ x = 0 ∧ z = 0 then some (centerFaceIcons .top)
  else if x = 1 ∧ y = 0 ∧ z = 0 then some (centerFaceIcons .right)
  else if x = -1 ∧ y = 0 ∧ z = 0 then some (centerFaceIcons .left)
  else none

/-- One iteration of the grid loop.  `rand` is the injected random colour
stream: draw `n` is the palette index picked by
`Math.floor(Math.random() * colors.length)` at the n-th loop iteration. -/
def mkCube (rand : ℕ → Fin 6) (n : ℕ) (x y z : ℤ) : CubeData :=
  { id := encodeId x y z
    localPosition := ((x : ℚ) * gap, 0, (z : ℚ) * gap)
    color := cubeColors.getD (rand n) ""
    iconType := iconFor x y z
    layer := if y = 1 then .top else if y = 0 then .mid else .bot }

/-- The loop ranges: x, y, z each over −1, 0, 1 in loop nesting order
(x outermost, z innermost). -/
def gridTriples : List (ℤ × ℤ × ℤ) :=
  ([-1, 0, 1] : List ℤ).flatMap fun x =>
    ([-1, 0, 1] : List ℤ).flatMap fun y =>
      ([-1, 0, 1] : List ℤ).map fun z => (x, y, z)

/-- All 27 pieces in loop-iteration order. -/
def gridAll (rand : ℕ → Fin 6) : List CubeData :=
  gridTriples.enum.map fun p => mkCube rand p.1 p.2.1 p.2.2.1 p.2.2.2

/-- The grid partitioned into slices (`CubeGridState`): the loop pushes
each piece into top/mid/bot according to its y grid coordinate, preserving
iteration order. -/
structure CubeGridState where
  top : List CubeData
  mid : List CubeData
  bot : List CubeData

/-- The grid builder (the `slices` useMemo body). -/
def slices (rand : ℕ → Fin 6) : CubeGridState :=
  { top := (gridAll rand).filter fun c => c.layer = .top
    mid := (gridAll rand).filter fun c => c.layer = .mid
    bot := (gridAll rand).filter fun c => c.layer = .bot }

/-- The pieces in render/ref-collection order: top slice, then mid, then
bot (the order in which `addToRefs` collects the live handles). -/
def allPieces (rand : ℕ → Fin 6) : List CubeData :=
  (slices rand).top ++ (slices rand).mid ++ (slices rand).bot

/-- The id strings in ref-collection order. -/
def gridIds (rand : ℕ → Fin 6) : List String :=
  (allPieces rand).map (·.id)

/-! ## Icon texture generator (src/utils/createIconTexture.ts)

The canvas 2D context is modelled as a trace of drawing commands; the
`document.createElement` / `getContext` capability is a boolean input.
Angle arguments of `arc` are recorded in units of π (the source only ever
passes rational multiples of `Math.PI`), so the trace stays decidable. -/

/-- One canvas 2D drawing command or context-property assignment. -/
inductive DrawCmd
  | clearRect (x y w h : ℚ)
  | strokeStyle (c : String)
  | fillStyle (c : String)
  | lineWidth (w : ℚ)
  | lineCap (s : String)
  | lineJoin (s : String)
  | globalAlpha (a : ℚ)
  | beginPath
  | closePath
  | moveTo (x y : ℚ)
  | lineTo (x y : ℚ)
  | arc (x y r : ℚ) (a0Pi a1Pi : ℚ) (ccw : Bool)
  | strokeRect (x y w h : ℚ)
  | fill
  | stroke
  deriving DecidableEq, Repr

/-- Node positions of one neural-network layer: x coordinate and node
count, vertical spacing 70, centred on cy. -/
def nnLayerNodes (cy : ℚ) (lx : ℚ) (nodes : ℕ) : List (ℚ × ℚ) :=
  (List.range nodes).map fun i =>
    (lx, (cy - ((nodes : ℚ) - 1) * 70 / 2) + (i : ℚ) * 70)

/-- `drawNeuralNetwork`: three layers of filled nodes joined by
low-alpha connection lines. -/
def drawNeuralNetwork (cx cy : ℚ) : List DrawCmd :=
  let layers : List (List (ℚ × ℚ)) :=
    [nnLayerNodes cy (cx - 120) 3, nnLayerNodes cy cx 4, nnLayerNodes cy (cx + 120) 3]
  let connections :=
    (List.range (layers.length - 1)).flatMap fun l =>
      (layers.getD l []).flatMap fun s =>
        (layers.getD (l + 1) []).flatMap fun e =>
          [DrawCmd.beginPath, .moveTo s.1 s.2, .lineTo e.1 e.2, .stroke]
  let nodes :=
    layers.flatMap fun layer =>
      layer.flatMap fun node =>
        [DrawCmd.beginPath, .arc node.1 node.2 20 0 2 false, .fill]
  [DrawCmd.lineWidth 4, .globalAlpha 0.4] ++ connections ++
    [DrawCmd.globalAlpha 1, .lineWidth 15] ++ nodes

/-- `drawCodeBrackets`: the angle-bracket pair with a slash. -/
def drawCodeBrackets (cx cy : ℚ) : List DrawCmd :=
  [DrawCmd.lineWidth 20,
   .beginPath, .moveTo (cx - 30) (cy - 100), .lineTo (cx - 110) cy,
   .lineTo (cx - 30) (cy + 100), .stroke,
   .beginPath, .moveTo (cx + 30) (cy - 100), .lineTo (cx + 110) cy,
   .lineTo (cx + 30) (cy + 100), .stroke,
   .beginPath, .moveTo (cx - 25) (cy + 70), .lineTo (cx + 25) (cy - 70), .stroke]

/-- `drawBrain`: hemisphere arcs, inner folds, centre line. -/
def drawBrain (cx cy : ℚ) : List DrawCmd :=
  [DrawCmd.lineWidth 12,
   .beginPath, .arc (cx - 50) (cy - 20) 80 0.4 1.6 false, .stroke,
   .beginPath, .arc (cx + 50) (cy - 20) 80 1.4 0.6 true, .stroke,
   .beginPath, .arc (cx - 40) (cy + 10) 35 0 1 false, .stroke,
   .beginPath, .arc (cx + 40) (cy + 10) 35 0 1 false, .stroke,
   .beginPath, .moveTo cx (cy - 100), .lineTo cx (cy + 50), .stroke]

/-- `drawDataFlow`: three stroked boxes joined by down arrows. -/
def drawDataFlow (cx cy : ℚ) : List DrawCmd :=
  [DrawCmd.lineWidth 10,
   .strokeRect (cx - 50) (cy - 120) 100 50,
   .beginPath, .moveTo cx (cy - 70), .lineTo cx (cy - 30), .stroke,
   .beginPath, .moveTo (cx - 15) (cy - 45), .lineTo cx (cy - 30),
   .lineTo (cx + 15) (cy - 45), .stroke,
   .strokeRect (cx - 50) (cy - 25) 100 50,
   .beginPath, .moveTo cx (cy + 25), .lineTo cx (cy + 65), .stroke,
   .beginPath, .moveTo (cx - 15) (cy + 50), .lineTo cx (cy + 65),
   .lineTo (cx + 15) (cy + 50), .stroke,
   .strokeRect (cx - 50) (cy + 70) 100 50]

/-- One node of the circuit grid together with its outgoing connections.
The source loops i, j over −2..2; here k ranges over 0..4 with i = k − 2. -/
def circuitCell (cx cy : ℚ) (i j : ℤ) : List DrawCmd :=
  let x := cx + (i : ℚ) * 70
  let y := cy + (j : ℚ) * 70
  [DrawCmd.beginPath, .arc x y 12 0 2 false, .fill] ++
    (if i < 2 then
      [DrawCmd.beginPath, .moveTo (x + 12) y, .lineTo (x + 70 - 12) y, .stroke]
    else []) ++
    (if j < 2 then
      [DrawCmd.beginPath, .moveTo x (y + 12), .lineTo x (y + 70 - 12), .stroke]
    else [])

/-- `drawCircuit`: a 5×5 dot grid with connections. -/
def drawCircuit (cx cy : ℚ) : List DrawCmd :=
  DrawCmd.lineWidth 8 ::
    (List.range 5).flatMap fun ki =>
      (List.range 5).flatMap fun kj =>
        circuitCell cx cy ((ki : ℤ) - 2) ((kj : ℤ) - 2)

/-- `drawCube3D`: the isometric cube wireframe. -/
def drawCube3D (cx cy : ℚ) : List DrawCmd :=
  let size : ℚ := 80
  let topP : ℚ × ℚ := (cx, cy - size)
  let bottomP : ℚ × ℚ := (cx, cy + size)
  let frontLeft : ℚ × ℚ := (cx - size * 0.866, cy + size * 0.5)
  let frontRight : ℚ × ℚ := (cx + size * 0.866, cy + size * 0.5)
  let backLeft : ℚ × ℚ := (cx - size * 0.866, cy - size * 0.5)
  let backRight : ℚ × ℚ := (cx + size * 0.866, cy - size * 0.5)
  [DrawCmd.lineWidth 12,
   .beginPath, .moveTo topP.1 topP.2, .lineTo backRight.1 backRight.2,
   .lineTo frontRight.1 frontRight.2, .lineTo bottomP.1 bottomP.2,
   .lineTo frontLeft.1 frontLeft.2, .lineTo backLeft.1 backLeft.2,
   .closePath, .stroke,
   .beginPath, .moveTo topP.1 topP.2, .lineTo bottomP.1 bottomP.2, .stroke,
   .beginPath, .moveTo backLeft.1 backLeft.2, .lineTo frontRight.1 frontRight.2, .stroke,
   .beginPath, .moveTo backRight.1 backRight.2, .lineTo frontLeft.1 frontLeft.2, .stroke]

/-- The result of `createIconTexture`: the empty string, or a data URL
encoding the pixels produced by a command trace. -/
inductive TexResult
  | empty
  | png (cmds : List DrawCmd)
  deriving DecidableEq, Repr

/-- The six recognised glyph identifiers, as runtime strings. -/
def knownIconTypes : List String :=
  ["neural-network", "code-brackets", "brain", "data-flow", "circuit", "cube-3d"]

/-- `createIconTexture`: dispatches on the glyph identifier after the
common context setup; an unrecognised identifier falls through to the
default branch (a single filled circle); a missing 2D context logs an
error and returns the empty string.  Returns (result, console-error log).
Total by construction: no exception path exists. -/
def createIconTexture (ctxAvailable : Bool) (ty : String) (color : String) :
    TexResult × List String :=
  if !ctxAvailable then (.empty, ["Canvas 2D context unavailable"])
  else
    let size : ℚ := 512
    let cx := size / 2
    let cy := size / 2
    let setup : List DrawCmd :=
      [.clearRect 0 0 size size, .strokeStyle color, .fillStyle color,
       .lineWidth 15, .lineCap "round", .lineJoin "round"]
    let body : List DrawCmd :=
      if ty = "neural-network" then drawNeuralNetwork cx cy
      else if ty = "code-brackets" then drawCodeBrackets cx cy
      else if ty = "brain" then drawBrain cx cy
      else if ty = "data-flow" then drawDataFlow cx cy
      else if ty = "circuit" then drawCircuit cx cy
      else if ty = "cube-3d" then drawCube3D cx cy
      else [.beginPath, .arc cx cy 50 0 2 false, .fill]
    (.png (setup ++ body), [])

/-! ## 3D vectors (THREE.Vector3 operations used by the core) -/

/-- A 3D vector over ℝ. -/
structure Vec3 where
  x : ℝ
  y : ℝ
  z : ℝ

namespace Vec3

noncomputable instance : Inhabited Vec3 := ⟨⟨0, 0, 0⟩⟩

/-- Componentwise addition (`Vector3.add`). -/
noncomputable def add (a b : Vec3) : Vec3 := ⟨a.x + b.x, a.y + b.y, a.z + b.z⟩

/-- Componentwise subtraction (`Vector3.sub`). -/
noncomputable def sub (a b : Vec3) : Vec3 := ⟨a.x - b.x, a.y - b.y, a.z - b.z⟩

/-- Scalar multiplication (`Vector3.multiplyScalar`). -/
noncomputable def smul (s : ℝ) (a : Vec3) : Vec3 := ⟨s * a.x, s * a.y, s * a.z⟩

/-- Squared Euclidean length. -/
noncomputable def lengthSq (a : Vec3) : ℝ := a.x ^ 2 + a.y ^ 2 + a.z ^ 2

/-- Euclidean length (`Vector3.length`). -/
noncomputable def length (a : Vec3) : ℝ := Real.sqrt a.lengthSq

/-- Distance between two points (`Vector3.distanceTo`). -/
noncomputable def dist (a b : Vec3) : ℝ := length (sub a b)

/-- `Vector3.normalize`: divides by `length() || 1`, so the zero vector is
left unchanged. -/
noncomputable def normalize (a : Vec3) : Vec3 :=
  if length a = 0 then a else smul (length a)⁻¹ a

/-- `Vector3.lerp`: each component moves the fraction t of the way to the
target. -/
noncomputable def lerp (a b : Vec3) (t : ℝ) : Vec3 :=
  ⟨a.x + (b.x - a.x) * t, a.y + (b.y - a.y) * t, a.z + (b.z - a.z) * t⟩

theorem ext_iff {a b : Vec3} : a = b ↔ a.x = b.x ∧ a.y = b.y ∧ a.z = b.z := by
  cases a; cases b; simp [mk.injEq]

end Vec3

/-! ## Physics constants (CUBE_THEME.physics) -/

/-- `CUBE_THEME.physics.floorY`. -/
noncomputable def floorY : ℝ := -5.0

/-- `CUBE_THEME.physics.repulsionRadius`. -/
noncomputable def repulsionRadius : ℝ := 4.0

/-- `CUBE_THEME.physics.repulsionForce`. -/
noncomputable def repulsionForce : ℝ := 45.0

/-- `CUBE_THEME.physics.drag` (per-frame friction multiplier). -/
noncomputable def dragCoeff : ℝ := 0.96

/-- `CUBE_THEME.physics.collisionMinDist`. -/
noncomputable def collisionMinDist : ℝ := 1.1

/-- `CUBE_THEME.physics.collisionForce`. -/
noncomputable def collisionForce : ℝ := 15.0

/-- The inline minimum distance of the drag push loop (`const minDist = 1.3`). -/
noncomputable def dragPushMinDist : ℝ := 1.3

/-! ## Physics loop (the useFrame body of the RubiksCube component)

One live piece: its mesh position and its physics velocity.  The world
transform of the surrounding groups is modelled as the identity, so the
mesh world position coincides with `pos`; the piece array is modelled as
a function from indices, updated pointwise. -/

/-- A live piece handle: mesh position plus velocity slot. -/
structure Piece where
  pos : Vec3
  vel : Vec3

noncomputable instance : Inhabited Piece := ⟨⟨default, default⟩⟩

/-- The safe half-width of the wall clamp:
`Math.max(2, worldWidth - 1)` where `worldWidth = viewport.width / 2`. -/
noncomputable def safeBoundary (worldWidth : ℝ) : ℝ := max 2 (worldWidth - 1)

/-- The WALL COLLISION block: clamp x to ±boundary, inverting and damping
the x velocity by −0.8 on contact.  Returns (new x position, new x velocity). -/
noncomputable def wallClamp (b x vx : ℝ) : ℝ × ℝ :=
  if x > b then (b, vx * (-0.8))
  else if x < -b then (-b, vx * (-0.8))
  else (x, vx)

/-- The MOUSE REPULSION block: applied only when no piece is dragged
(`dragRef.current === null`), for pieces whose floor-projected distance to
the pointer is below the repulsion radius. -/
noncomputable def repulsionVel (drag : Option ℕ) (meshFloor mouseFloor : Vec3)
    (vel : Vec3) (δ : ℝ) : Vec3 :=
  if drag = none then
    let distToMouse := Vec3.dist meshFloor mouseFloor
    if distToMouse < repulsionRadius then
      Vec3.add vel (Vec3.smul ((1 - distToMouse / repulsionRadius) * repulsionForce * δ)
        (Vec3.normalize (Vec3.sub meshFloor mouseFloor)))
    else vel
  else vel

/-- The CUBE-TO-CUBE COLLISION block for piece i: walk every other index,
adding a jittered outward impulse for each piece closer than the minimum
distance.  `jx`, `jz` are the injected `Math.random()` draws used for the
lateral jitter against piece j. -/
noncomputable def collisionVel (n i : ℕ) (a : ℕ → Piece) (cur : Vec3) (v0 : Vec3)
    (δ : ℝ) (jx jz : ℕ → ℝ) : Vec3 :=
  (List.range n).foldl (fun v j =>
    if j = i then v
    else
      let otherPos := (a j).pos
      let d := Vec3.dist cur otherPos
      if d < collisionMinDist then
        let pd := Vec3.normalize (Vec3.sub cur otherPos)
        let pd2 : Vec3 := ⟨pd.x + (jx j - 0.5) * 0.1, pd.y, pd.z + (jz j - 0.5) * 0.1⟩
        Vec3.add v (Vec3.smul ((collisionMinDist - d) * collisionForce * δ) pd2)
      else v) v0

/-- The drag target: the pointer floor projection lifted by 0.5. -/
noncomputable def dragTarget (mouseFloor : Vec3) : Vec3 :=
  ⟨mouseFloor.x, floorY + 0.5, mouseFloor.z⟩

/-- The thrown velocity of the dragged piece: the full displacement toward
the lifted target, times 10 (`moveDiff.multiplyScalar(10)`), computed from
the pre-lerp position. -/
noncomputable def dragVel (p : Piece) (mouseFloor : Vec3) : Vec3 :=
  Vec3.smul 10 (Vec3.sub (dragTarget mouseFloor) p.pos)

/-- The eased position of the dragged piece:
`mesh.position.lerp(targetPos, 0.2)`. -/
noncomputable def dragPos (p : Piece) (mouseFloor : Vec3) : Vec3 :=
  Vec3.lerp p.pos (dragTarget mouseFloor) 0.2

/-- The DRAG LOGIC branch for the grabbed piece i: set velocity from the
full displacement toward the lifted target (×10), lerp the position a 0.2
fraction toward it, push every other piece within 1.3 of the (lerped)
dragged position away, then return (skipping repulsion, collision, wall
clamp, integration and friction for piece i this frame). -/
noncomputable def stepDragged (n i : ℕ) (a : ℕ → Piece) (mouseFloor : Vec3)
    (δ : ℝ) : ℕ → Piece :=
  Function.update
    ((List.range n).foldl (fun acc j =>
      if j = i then acc
      else
        if Vec3.dist (dragPos (a i) mouseFloor) (acc j).pos < dragPushMinDist then
          Function.update acc j
            ⟨(acc j).pos,
             Vec3.add (acc j).vel
               (Vec3.smul
                 ((dragPushMinDist - Vec3.dist (dragPos (a i) mouseFloor) (acc j).pos)
                   * 30.0 * δ)
                 (Vec3.normalize (Vec3.sub (acc j).pos (dragPos (a i) mouseFloor))))⟩
        else acc) a)
    i ⟨dragPos (a i) mouseFloor, dragVel (a i) mouseFloor⟩

/-- The non-dragged branch for piece i: repulsion, collision, wall clamp,
velocity integration on x and z, idle y bobbing, then friction. -/
noncomputable def stepFree (n i : ℕ) (a : ℕ → Piece) (drag : Option ℕ)
    (mouseFloor : Vec3) (δ t worldWidth : ℝ) (jx jz : ℕ → ℝ) : ℕ → Piece :=
  let p := a i
  let meshFloor : Vec3 := ⟨p.pos.x, floorY, p.pos.z⟩
  let v1 := repulsionVel drag meshFloor mouseFloor p.vel δ
  let v2 := collisionVel n i a p.pos v1 δ jx jz
  let clamped := wallClamp (safeBoundary worldWidth) p.pos.x v2.x
  let pos2 : Vec3 :=
    ⟨clamped.1 + clamped.2 * δ,
     p.pos.y + Real.sin (t * 3 + (i : ℝ)) * 0.003,
     p.pos.z + v2.z * δ⟩
  let v3 := Vec3.smul dragCoeff ⟨clamped.2, v2.y, v2.z⟩
  Function.update a i ⟨pos2, v3⟩

/-- One index of the per-frame forEach: the dragged piece takes the drag
branch exclusively, every other piece the free branch. -/
noncomputable def processIndex (n : ℕ) (drag : Option ℕ) (mouseFloor : Vec3)
    (δ t worldWidth : ℝ) (jx jz : ℕ → ℕ → ℝ) (acc : ℕ → Piece) (i : ℕ) : ℕ → Piece :=
  if drag = some i then stepDragged n i acc mouseFloor δ
  else stepFree n i acc drag mouseFloor δ t worldWidth (jx i) (jz i)

/-- One full physics frame over pieces 0..n−1, in index order, each piece
reading the already-updated state of earlier pieces.  `mouseWorld` is the
pointer position unprojected onto the scene (its floor projection is taken
inside, as in the source); `vw` is `viewport.width`. -/
noncomputable def physicsFrame (n : ℕ) (a : ℕ → Piece) (drag : Option ℕ)
    (mouseWorld : Vec3) (δ t vw : ℝ) (jx jz : ℕ → ℕ → ℝ) : ℕ → Piece :=
  let mouseFloor : Vec3 := ⟨mouseWorld.x, floorY, mouseWorld.z⟩
  (List.range n).foldl (processIndex n drag mouseFloor δ t (vw / 2) jx jz) a

/-! ## Explosion targets (tl2, "Explode each cube outward") -/

/-- The slice group y offset looked up per piece (1.05 for the top slice
group, −1.05 for the bottom, 0 for the middle). -/
noncomputable def parentY : Layer → ℝ
  | .top => 1.05
  | .mid => 0
  | .bot => -1.05

/-- The mesh position at timeline-build time: the piece's local position
within its slice group. -/
noncomputable def initPos (c : CubeData) : Vec3 :=
  ⟨(c.localPosition.1 : ℝ), (c.localPosition.2.1 : ℝ), (c.localPosition.2.2 : ℝ)⟩

/-- The un-normalised explosion direction:
`new THREE.Vector3(mesh.position.x, parentY, mesh.position.z)`. -/
noncomputable def explodeRaw (c : CubeData) : Vec3 :=
  ⟨(c.localPosition.1 : ℝ), parentY c.layer, (c.localPosition.2.2 : ℝ)⟩

/-- The explosion direction: normalise the raw vector, falling back to the
fixed upward direction when the result is degenerate (zero length). -/
noncomputable def explodeDir (v : Vec3) : Vec3 :=
  let d := Vec3.normalize v
  if Vec3.length d = 0 then ⟨0, 1, 0⟩ else d

/-- `safeSpread = Math.min(3.0, screenWidth * 0.25)`. -/
noncomputable def safeSpread (w : ℝ) : ℝ := min 3.0 (w * 0.25)

/-- `explodeDist = safeSpread + Math.random() * 2`; `r` is the injected
random draw. -/
noncomputable def explodeDist (w r : ℝ) : ℝ := safeSpread w + r * 2

/-- The per-piece explosion target position written by tl2:
x displaced by dir.x·(dist·0.7), y by dir.y·dist − parentY, z by dir.z·dist. -/
noncomputable def explodeTarget (c : CubeData) (w r : ℝ) : Vec3 :=
  let dir := explodeDir (explodeRaw c)
  let ed := explodeDist w r
  ⟨(initPos c).x + dir.x * (ed * 0.7),
   (initPos c).y + dir.y * ed - parentY c.layer,
   (initPos c).z + dir.z * ed⟩

/-- A local slice-frame position lifted into the world frame of the cube
assembly: the slice group adds its y offset. -/
noncomputable def worldLift (c : CubeData) (v : Vec3) : Vec3 :=
  ⟨v.x, v.y + parentY c.layer, v.z⟩

/-! ## Scrub-bound tween model (tl1 and tl2)

A GSAP scrubbed timeline is a pure function of its progress: each tween
channel holds a recorded start value, a target, a position on the
timeline, a duration and an easing.  The value at time t is the eased
interpolation, clamped to start before the tween and to target after it. -/

/-- The easing curves used by tl1/tl2 (GSAP names; power1 is quadratic,
power2 cubic; the unspecified ease of the tl2 rotation tween is the GSAP
default power1.out). -/
inductive Ease
  | linear
  | power1InOut
  | power1Out
  | power2InOut
  | power2Out

/-- The easing function on a local progress fraction p ∈ [0,1]. -/
noncomputable def applyEase : Ease → ℝ → ℝ
  | .linear, p => p
  | .power1InOut, p => if p < 1 / 2 then 2 * p ^ 2 else 1 - (-2 * p + 2) ^ 2 / 2
  | .power1Out, p => 1 - (1 - p) ^ 2
  | .power2InOut, p => if p < 1 / 2 then 4 * p ^ 3 else 1 - (-2 * p + 2) ^ 3 / 2
  | .power2Out, p => 1 - (1 - p) ^ 3

/-- One scalar tween channel. -/
structure Tween where
  pos : ℝ
  dur : ℝ
  ease : Ease
  start : ℝ
  target : ℝ

/-- The channel value at timeline time t — a pure function of t. -/
noncomputable def tweenAt (tw : Tween) (t : ℝ) : ℝ :=
  if t ≤ tw.pos then tw.start
  else if tw.pos + tw.dur ≤ t then tw.target
  else tw.start + applyEase tw.ease ((t - tw.pos) / tw.dur) * (tw.target - tw.start)

/-- tl1 (hero → details): group rotation to (0.2, π·0.25, 0) over duration
1 with power2.inOut; group position and scale to the responsive centering
targets over the default duration 0.5 with power1.inOut; all at position 0.
`rotS`, `posS`, `sclS` are the recorded start transforms. -/
noncomputable def tl1Tweens (isMobile : Bool) (rotS posS sclS : Vec3) : List Tween :=
  let centerPosDetails : Vec3 := if isMobile then ⟨0, 0.5, 0⟩ else ⟨0, -2.5, 0⟩
  let detailScale : ℝ := if isMobile then 0.6 else 0.9
  [⟨0, 1, .power2InOut, rotS.x, 0.2⟩,
   ⟨0, 1, .power2InOut, rotS.y, Real.pi * 0.25⟩,
   ⟨0, 1, .power2InOut, rotS.z, 0⟩,
   ⟨0, 0.5, .power1InOut, posS.x, centerPosDetails.x⟩,
   ⟨0, 0.5, .power1InOut, posS.y, centerPosDetails.y⟩,
   ⟨0, 0.5, .power1InOut, posS.z, centerPosDetails.z⟩,
   ⟨0, 0.5, .power1InOut, sclS.x, detailScale⟩,
   ⟨0, 0.5, .power1InOut, sclS.y, detailScale⟩,
   ⟨0, 0.5, .power1InOut, sclS.z, detailScale⟩]

/-- tl2, slice-reset part: all three slice rotations forced back to zero
over duration 0.3 with power2.inOut, at position 0. -/
noncomputable def tl2SliceResetTweens (topRotS midRotS botRotS : Vec3) : List Tween :=
  [⟨0, 0.3, .power2InOut, topRotS.x, 0⟩,
   ⟨0, 0.3, .power2InOut, topRotS.y, 0⟩,
   ⟨0, 0.3, .power2InOut, topRotS.z, 0⟩,
   ⟨0, 0.3, .power2InOut, midRotS.x, 0⟩,
   ⟨0, 0.3, .power2InOut, midRotS.y, 0⟩,
   ⟨0, 0.3, .power2InOut, midRotS.z, 0⟩,
   ⟨0, 0.3, .power2InOut, botRotS.x, 0⟩,
   ⟨0, 0.3, .power2InOut, botRotS.y, 0⟩,
   ⟨0, 0.3, .power2InOut, botRotS.z, 0⟩]

/-- tl2, main-group part: position to the origin, scale to the breakdown
scale, rotation to (0.5, π·2.25, 0.2), all power2.inOut over the default
duration 0.5, at position 0. -/
noncomputable def tl2GroupTweens (isMobile : Bool) (posS sclS rotS : Vec3) : List Tween :=
  let breakdownScale : ℝ := if isMobile then 0.55 else 0.8
  [⟨0, 0.5, .power2InOut, posS.x, 0⟩,
   ⟨0, 0.5, .power2InOut, posS.y, 0⟩,
   ⟨0, 0.5, .power2InOut, posS.z, 0⟩,
   ⟨0, 0.5, .power2InOut, sclS.x, breakdownScale⟩,
   ⟨0, 0.5, .power2InOut, sclS.y, breakdownScale⟩,
   ⟨0, 0.5, .power2InOut, sclS.z, breakdownScale⟩,
   ⟨0, 0.5, .power2InOut, rotS.x, 0.5⟩,
   ⟨0, 0.5, .power2InOut, rotS.y, Real.pi * 2.25⟩,
   ⟨0, 0.5, .power2InOut, rotS.z, 0.2⟩]

/-- tl2, per-cube part: position to the explosion target with power2.out
over the default duration 0.5, and rotation to three random full-turn
angles (`rotT`) over the explosion duration 1.0 with the GSAP default
ease, both at position 0.  `posS`, `rotS` are the recorded starts. -/
noncomputable def tl2CubeTweens (c : CubeData) (posS rotS rotT : Vec3) (w r : ℝ) :
    List Tween :=
  [⟨0, 0.5, .power2Out, posS.x, (explodeTarget c w r).x⟩,
   ⟨0, 0.5, .power2Out, posS.y, (explodeTarget c w r).y⟩,
   ⟨0, 0.5, .power2Out, posS.z, (explodeTarget c w r).z⟩,
   ⟨0, 1, .power1Out, rotS.x, rotT.x⟩,
   ⟨0, 1, .power1Out, rotS.y, rotT.y⟩,
   ⟨0, 1, .power1Out, rotS.z, rotT.z⟩]

/-! ## Physics activation latch (tl3 ScrollTrigger onLeave / onEnterBack) -/

/-- The mutable physics flag state: the `active` flag plus the velocity
array (one slot per piece). -/
structure LatchState where
  active : Bool
  velocities : List Vec3

/-- `onLeave` (forward crossing of the explode-to-drop boundary):
`physics.current.active = true`. -/
def onLeave (s : LatchState) : LatchState :=
  { s with active := true }

/-- `onEnterBack` (backward crossing): `active = false` and every velocity
vector set to (0,0,0). -/
noncomputable def onEnterBack (s : LatchState) : LatchState :=
  { active := false
    velocities := s.velocities.map fun _ => ⟨0, 0, 0⟩ }

/-! ## Helper lemmas -/

theorem Vec3.lengthSq_nonneg (v : Vec3) : 0 ≤ v.lengthSq := by
  have hx : (0:ℝ) ≤ v.x ^ 2 := sq_nonneg _
  have hy : (0:ℝ) ≤ v.y ^ 2 := sq_nonneg _
  have hz : (0:ℝ) ≤ v.z ^ 2 := sq_nonneg _
  unfold Vec3.lengthSq
  linarith

theorem Vec3.length_nonneg (v : Vec3) : 0 ≤ v.length :=
  Real.sqrt_nonneg _

theorem Vec3.length_eq_zero_iff (v : Vec3) : v.length = 0 ↔ v = ⟨0, 0, 0⟩ := by
  constructor
  · intro h
    have h0 : v.lengthSq ≤ 0 := Real.sqrt_eq_zero'.mp h
    have hx : (0:ℝ) ≤ v.x ^ 2 := sq_nonneg _
    have hy : (0:ℝ) ≤ v.y ^ 2 := sq_nonneg _
    have hz : (0:ℝ) ≤ v.z ^ 2 := sq_nonneg _
    have hsq : v.lengthSq = v.x ^ 2 + v.y ^ 2 + v.z ^ 2 := rfl
    have hx0 : v.x = 0 := by nlinarith
    have hy0 : v.y = 0 := by nlinarith
    have hz0 : v.z = 0 := by nlinarith
    cases v
    simp_all
  · intro h
    subst h
    simp [Vec3.length, Vec3.lengthSq]

theorem Vec3.sq_length (v : Vec3) : v.length ^ 2 = v.lengthSq :=
  Real.sq_sqrt (Vec3.lengthSq_nonneg v)

/-- Every piece produced by the grid loop is some `mkCube`. -/
theorem mem_allPieces {rand : ℕ → Fin 6} {c : CubeData}
    (hc : c ∈ allPieces rand) : ∃ n x y z, c = mkCube rand n x y z := by
  have htop : (slices rand).top = (gridAll rand).filter (fun c => c.layer = .top) := rfl
  have hmid : (slices rand).mid = (gridAll rand).filter (fun c => c.layer = .mid) := rfl
  have hbot : (slices rand).bot = (gridAll rand).filter (fun c => c.layer = .bot) := rfl
  have : c ∈ gridAll rand := by
    unfold allPieces at hc
    rw [htop, hmid, hbot] at hc
    rcases List.mem_append.mp hc with h | h
    · rcases List.mem_append.mp h with h2 | h2
      · exact (List.mem_filter.mp h2).1
      · exact (List.mem_filter.mp h2).1
    · exact (List.mem_filter.mp h).1
  unfold gridAll at this
  rcases List.mem_map.mp this with ⟨p, _, hp⟩
  exact ⟨p.1, p.2.1, p.2.2.1, p.2.2.2, hp.symm⟩

/-- Pointwise-update folds: folding index-local updates over a duplicate-free
index list evaluates, at any index, to the update of the initial state. -/
theorem foldl_update_apply (g : ℕ → Piece → Piece) :
    ∀ (l : List ℕ), l.Nodup → ∀ (a : ℕ → Piece) (k : ℕ),
      (l.foldl (fun acc j => Function.update acc j (g j (acc j))) a) k
        = if k ∈ l then g k (a k) else a k := by
  intro l
  induction l with
  | nil => intro _ a k; simp
  | cons j0 tl ih =>
    intro hl a k
    have hj0 : j0 ∉ tl := (List.nodup_cons.mp hl).1
    have htl : tl.Nodup := (List.nodup_cons.mp hl).2
    simp only [List.foldl_cons]
    rw [ih htl]
    by_cases hk : k ∈ tl
    · have hkj : k ≠ j0 := fun h => hj0 (h ▸ hk)
      simp [hk, Function.update_noteq hkj, List.mem_cons]
    · by_cases hkj : k = j0
      · subst hkj
        simp [hk, Function.update_same]
      · simp [hk, hkj, Function.update_noteq hkj, List.mem_cons]

/-- Guarded pointwise-update folds (skip index i, update index j only when
its current value satisfies C): over a duplicate-free index list the result
at k is the conditional update of the initial value. -/
theorem foldl_push_apply (i : ℕ) (C : Piece → Prop) [DecidablePred C]
    (U : Piece → Piece) (l : List ℕ) (hl : l.Nodup) (a : ℕ → Piece) (k : ℕ) :
    (l.foldl (fun acc j =>
        if j = i then acc
        else if C (acc j) then Function.update acc j (U (acc j)) else acc) a) k
      = if k ∈ l ∧ k ≠ i then (if C (a k) then U (a k) else a k) else a k := by
  have hbody : (fun (acc : ℕ → Piece) (j : ℕ) =>
      if j = i then acc
      else if C (acc j) then Function.update acc j (U (acc j)) else acc)
      = fun acc j => Function.update acc j
          (if j = i then acc j else if C (acc j) then U (acc j) else acc j) := by
    funext acc j
    by_cases hj : j = i
    · simp [hj, Function.update_eq_self]
    · by_cases hC : C (acc j)
      · simp [hj, hC]
      · simp [hj, hC, Function.update_eq_self]
  rw [hbody]
  have h2 : ((l.foldl (fun acc j => Function.update acc j
        (if j = i then acc j else if C (acc j) then U (acc j) else acc j)) a) k)
      = if k ∈ l then (if k = i then a k else if C (a k) then U (a k) else a k)
        else a k :=
    foldl_update_apply (fun j q => if j = i then q else if C q then U q else q) l hl a k
  rw [h2]
  by_cases hk : k ∈ l
  · by_cases hki : k = i
    · simp [hk, hki]
    · simp [hk, hki]
  · simp [hk]

/-- One frame of the physics loop for a single piece whose pointer is at
least the repulsion radius away (floor-projected) and whose x position is
beyond the safe boundary: the wall clamp fires, then integration and
friction run. -/
theorem stepFree_single_far (p : Piece) (mw : Vec3) (δ t vw : ℝ)
    (jx jz : ℕ → ℕ → ℝ)
    (hm : repulsionRadius ≤ Vec3.dist ⟨p.pos.x, floorY, p.pos.z⟩ ⟨mw.x, floorY, mw.z⟩)
    (hb : safeBoundary (vw / 2) < p.pos.x) :
    physicsFrame 1 (fun _ => p) none mw δ t vw jx jz 0
      = ⟨⟨safeBoundary (vw / 2) + p.vel.x * (-0.8) * δ,
          p.pos.y + Real.sin (t * 3 + ((0 : ℕ) : ℝ)) * 0.003,
          p.pos.z + p.vel.z * δ⟩,
         Vec3.smul dragCoeff ⟨p.vel.x * (-0.8), p.vel.y, p.vel.z⟩⟩ := by
  have hrep : repulsionVel none ⟨p.pos.x, floorY, p.pos.z⟩ ⟨mw.x, floorY, mw.z⟩
      p.vel δ = p.vel := by
    unfold repulsionVel
    rw [if_pos rfl, if_neg (not_lt.mpr hm)]
  have hcol : ∀ v : Vec3, collisionVel 1 0 (fun _ => p) p.pos v δ (jx 0) (jz 0) = v := by
    intro v
    unfold collisionVel
    rw [show List.range 1 = [0] from rfl]
    simp
  unfold physicsFrame
  rw [show List.range 1 = [0] from rfl]
  simp only [List.foldl_cons, List.foldl_nil]
  unfold processIndex
  rw [if_neg (by simp)]
  unfold stepFree
  simp only [hrep, hcol]
  unfold wallClamp
  rw [if_pos hb]
  simp only [Function.update_same]

theorem explodeDir_zero : explodeDir ⟨0, 0, 0⟩ = ⟨0, 1, 0⟩ := by
  have h0 : Vec3.length ⟨0, 0, 0⟩ = 0 := by
    simp [Vec3.length, Vec3.lengthSq]
  unfold explodeDir Vec3.normalize
  simp [h0]

theorem Vec3.lengthSq_smul (s : ℝ) (v : Vec3) :
    (Vec3.smul s v).lengthSq = s ^ 2 * v.lengthSq := by
  unfold Vec3.smul Vec3.lengthSq
  ring

theorem explodeDir_nonzero (v : Vec3) (hv : v ≠ ⟨0, 0, 0⟩) :
    explodeDir v = Vec3.smul (Vec3.length v)⁻¹ v := by
  have hL : Vec3.length v ≠ 0 := fun h => hv ((Vec3.length_eq_zero_iff v).mp h)
  have hnorm : Vec3.normalize v = Vec3.smul (Vec3.length v)⁻¹ v := by
    unfold Vec3.normalize
    rw [if_neg hL]
  have hsq1 : (Vec3.smul (Vec3.length v)⁻¹ v).lengthSq = 1 := by
    rw [Vec3.lengthSq_smul, ← Vec3.sq_length v]
    field_simp
  have hlen1 : Vec3.length (Vec3.smul (Vec3.length v)⁻¹ v) = 1 :=
    calc Vec3.length (Vec3.smul (Vec3.length v)⁻¹ v)
        = Real.sqrt ((Vec3.smul (Vec3.length v)⁻¹ v).lengthSq) := rfl
      _ = Real.sqrt 1 := by rw [hsq1]
      _ = 1 := Real.sqrt_one
  unfold explodeDir
  rw [hnorm, if_neg (by rw [hlen1]; norm_num)]

/-- The world-frame exploded position (the explosion target with the slice
offset restored) of a piece with slice-local height 0 sits at distance at
least 0.7·d from the assembly origin, whatever the raw direction vector. -/
theorem explode_origin_lower_bound (px pY pz d : ℝ) (hd : 0 ≤ d) :
    0.7 * d ≤ Vec3.length
      ⟨px + (explodeDir ⟨px, pY, pz⟩).x * (d * 0.7),
       (explodeDir ⟨px, pY, pz⟩).y * d,
       pz + (explodeDir ⟨px, pY, pz⟩).z * d⟩ := by
  by_cases h0 : (⟨px, pY, pz⟩ : Vec3) = ⟨0, 0, 0⟩
  · have hx : px = 0 := congrArg Vec3.x h0
    have hy : pY = 0 := congrArg Vec3.y h0
    have hz : pz = 0 := congrArg Vec3.z h0
    subst hx; subst hy; subst hz
    rw [explodeDir_zero]
    have hl : Vec3.length ⟨(0:ℝ) + 0 * (d * 0.7), 1 * d, (0:ℝ) + 0 * d⟩ = d := by
      unfold Vec3.length Vec3.lengthSq
      rw [show ((0:ℝ) + 0 * (d * 0.7)) ^ 2 + (1 * d) ^ 2 + ((0:ℝ) + 0 * d) ^ 2
          = d ^ 2 by ring]
      exact Real.sqrt_sq hd
    rw [hl]
    linarith
  · have hL : Vec3.length ⟨px, pY, pz⟩ ≠ 0 :=
      fun h => h0 ((Vec3.length_eq_zero_iff _).mp h)
    have hLpos : 0 < Vec3.length ⟨px, pY, pz⟩ :=
      lt_of_le_of_ne (Vec3.length_nonneg _) (Ne.symm hL)
    rw [explodeDir_nonzero _ h0]
    simp only [Vec3.smul]
    have hL2 : Vec3.length ⟨px, pY, pz⟩ ^ 2 = px ^ 2 + pY ^ 2 + pz ^ 2 := by
      rw [Vec3.sq_length]
      rfl
    have h07 : (0:ℝ) ≤ 0.7 * d := by linarith
    have hu : 0 < (Vec3.length ⟨px, pY, pz⟩)⁻¹ := inv_pos.mpr hLpos
    have huL : (Vec3.length ⟨px, pY, pz⟩)⁻¹ * Vec3.length ⟨px, pY, pz⟩ = 1 :=
      inv_mul_cancel₀ hL
    set L := Vec3.length ⟨px, pY, pz⟩ with hLdef
    set u := L⁻¹ with hudef
    have hdu : 0 ≤ d * u := mul_nonneg hd (le_of_lt hu)
    have heq : (px ^ 2 + pY ^ 2 + pz ^ 2) * (0.7 * d * u) ^ 2 = 0.49 * d ^ 2 := by
      have h1 : (u * L) ^ 2 = 1 := by rw [huL]; norm_num
      calc (px ^ 2 + pY ^ 2 + pz ^ 2) * (0.7 * d * u) ^ 2
          = L ^ 2 * (0.7 * d * u) ^ 2 := by rw [hL2]
        _ = 0.49 * d ^ 2 * (u * L) ^ 2 := by ring
        _ = 0.49 * d ^ 2 := by rw [h1]; ring
    have h1 : px ^ 2 * (0.7 * d * u) ^ 2 ≤ px ^ 2 * (1 + 0.7 * (d * u)) ^ 2 := by
      have : (0.7 * d * u) ^ 2 ≤ (1 + 0.7 * (d * u)) ^ 2 := by nlinarith
      exact mul_le_mul_of_nonneg_left this (sq_nonneg px)
    have h2 : pz ^ 2 * (0.7 * d * u) ^ 2 ≤ pz ^ 2 * (1 + d * u) ^ 2 := by
      have : (0.7 * d * u) ^ 2 ≤ (1 + d * u) ^ 2 := by nlinarith
      exact mul_le_mul_of_nonneg_left this (sq_nonneg pz)
    have h3 : pY ^ 2 * (0.7 * d * u) ^ 2 ≤ pY ^ 2 * (d * u) ^ 2 := by
      have : (0.7 * d * u) ^ 2 ≤ (d * u) ^ 2 := by nlinarith
      exact mul_le_mul_of_nonneg_left this (sq_nonneg pY)
    have hkey : (0.7 * d) ^ 2
        ≤ Vec3.lengthSq ⟨px + u * px * (d * 0.7), u * pY * d, pz + u * pz * d⟩ := by
      unfold Vec3.lengthSq
      nlinarith [h1, h2, h3, heq]
    calc 0.7 * d = Real.sqrt ((0.7 * d) ^ 2) := (Real.sqrt_sq h07).symm
      _ ≤ Real.sqrt (Vec3.lengthSq ⟨px + u * px * (d * 0.7), u * pY * d, pz + u * pz * d⟩) :=
          Real.sqrt_le_sqrt hkey
      _ = Vec3.length ⟨px + u * px * (d * 0.7), u * pY * d, pz + u * pz * d⟩ := rfl

/-- Any tween sitting at timeline position 0 reads back its recorded start
value at progress 0. -/
theorem tweenAt_pos_zero {tw : Tween} (h : tw.pos = 0) : tweenAt tw 0 = tw.start := by
  unfold tweenAt
  rw [if_pos (by rw [h])]

theorem tl1Tweens_pos_zero (m : Bool) (a b c : Vec3) :
    ∀ tw ∈ tl1Tweens m a b c, tw.pos = 0 := by
  intro tw h
  simp only [tl1Tweens, List.mem_cons, List.not_mem_nil, or_false] at h
  rcases h with h | h | h | h | h | h | h | h | h <;> subst h <;> rfl

theorem tl2SliceResetTweens_pos_zero (a b c : Vec3) :
    ∀ tw ∈ tl2SliceResetTweens a b c, tw.pos = 0 := by
  intro tw h
  simp only [tl2SliceResetTweens, List.mem_cons, List.not_mem_nil, or_false] at h
  rcases h with h | h | h | h | h | h | h | h | h <;> subst h <;> rfl

theorem tl2GroupTweens_pos_zero (m : Bool) (a b c : Vec3) :
    ∀ tw ∈ tl2GroupTweens m a b c, tw.pos = 0 := by
  intro tw h
  simp only [tl2GroupTweens, List.mem_cons, List.not_mem_nil, or_false] at h
  rcases h with h | h | h | h | h | h | h | h | h <;> subst h <;> rfl

theorem tl2CubeTweens_pos_zero (c : CubeData) (a b d : Vec3) (w r : ℝ) :
    ∀ tw ∈ tl2CubeTweens c a b d w r, tw.pos = 0 := by
  intro tw h
  simp only [tl2CubeTweens, List.mem_cons, List.not_mem_nil, or_false] at h
  rcases h with h | h | h | h | h | h <;> subst h <;> rfl

/-! ## Claim theorems -/

/-- C1: the grid builder, for any random colour stream, returns exactly 27
piece descriptors: 9 per slice, ids pairwise distinct and a permutation of
the encodings of all of {-1,0,1}³, with the top/mid/bot slices holding
exactly the y=1 / y=0 / y=−1 coordinates. -/
theorem c1_grid_builder (rand : ℕ → Fin 6) :
    ((slices rand).top.length = 9 ∧ (slices rand).mid.length = 9 ∧
      (slices rand).bot.length = 9)
    ∧ (gridIds rand).Nodup
    ∧ (gridIds rand).Perm (gridTriples.map fun t => encodeId t.1 t.2.1 t.2.2)
    ∧ (slices rand).top.map (·.id)
        = (gridTriples.filter fun t => t.2.1 = 1).map (fun t => encodeId t.1 t.2.1 t.2.2)
    ∧ (slices rand).mid.map (·.id)
        = (gridTriples.filter fun t => t.2.1 = 0).map (fun t => encodeId t.1 t.2.1 t.2.2)
    ∧ (slices rand).bot.map (·.id)
        = (gridTriples.filter fun t => t.2.1 = -1).map (fun t => encodeId t.1 t.2.1 t.2.2) := by
  have h : gridIds rand = gridIds fun _ => 0 := rfl
  refine ⟨⟨rfl, rfl, rfl⟩, ?_, ?_, rfl, rfl, rfl⟩
  · rw [h]; decide
  · rw [h]; decide

/-- C4 counterexample: at viewport width 4.2 (base spread 1.05) with the
random addend at 0, the top-slice centre piece (grid index 4, coordinates
(0,1,0)) has explosion target equal to its pre-explosion position: it
moves distance 0, strictly below the base spread constant. -/
theorem c4_counterexample :
    Vec3.dist (explodeTarget ((allPieces (fun _ => 0)).getD 4 default) 4.2 0)
        (initPos ((allPieces (fun _ => 0)).getD 4 default)) = 0
    ∧ safeSpread 4.2 = 1.05
    ∧ Vec3.dist (explodeTarget ((allPieces (fun _ => 0)).getD 4 default) 4.2 0)
        (initPos ((allPieces (fun _ => 0)).getD 4 default)) < safeSpread 4.2 := by
  have hpx : (((((allPieces (fun _ => 0)).getD 4 default).localPosition.1 : ℚ)) : ℝ) = 0 := by
    rw [show ((allPieces (fun _ => 0)).getD 4 default).localPosition.1
        = ((0 : ℤ) : ℚ) * gap from rfl]
    push_cast
    ring
  have hpy : (((((allPieces (fun _ => 0)).getD 4 default).localPosition.2.1 : ℚ)) : ℝ) = 0 := by
    rw [show ((allPieces (fun _ => 0)).getD 4 default).localPosition.2.1 = (0 : ℚ) from rfl]
    norm_num
  have hpz : (((((allPieces (fun _ => 0)).getD 4 default).localPosition.2.2 : ℚ)) : ℝ) = 0 := by
    rw [show ((allPieces (fun _ => 0)).getD 4 default).localPosition.2.2
        = ((0 : ℤ) : ℚ) * gap from rfl]
    push_cast
    ring
  have hlayer : ((allPieces (fun _ => 0)).getD 4 default).layer = .top := rfl
  have hinit : initPos ((allPieces (fun _ => 0)).getD 4 default) = ⟨0, 0, 0⟩ := by
    unfold initPos
    exact Vec3.ext_iff.mpr ⟨hpx, hpy, hpz⟩
  have hraw : explodeRaw ((allPieces (fun _ => 0)).getD 4 default) = ⟨0, 1.05, 0⟩ := by
    unfold explodeRaw
    rw [hlayer]
    exact Vec3.ext_iff.mpr ⟨hpx, by unfold parentY; rfl, hpz⟩
  have hlen : Vec3.length ⟨0, 1.05, 0⟩ = 1.05 := by
    unfold Vec3.length Vec3.lengthSq
    rw [show ((0:ℝ)) ^ 2 + (1.05:ℝ) ^ 2 + ((0:ℝ)) ^ 2 = 1.05 ^ 2 by norm_num]
    exact Real.sqrt_sq (by norm_num)
  have hdir : explodeDir (explodeRaw ((allPieces (fun _ => 0)).getD 4 default))
      = ⟨0, 1, 0⟩ := by
    rw [hraw, explodeDir_nonzero _ (by
      intro h
      have := congrArg Vec3.y h
      norm_num at this)]
    rw [hlen]
    unfold Vec3.smul
    exact Vec3.ext_iff.mpr ⟨by norm_num, by norm_num, by norm_num⟩
  have hss : safeSpread 4.2 = 1.05 := by
    unfold safeSpread
    rw [show (4.2:ℝ) * 0.25 = 1.05 by norm_num]
    exact min_eq_right (by norm_num)
  have htarget : explodeTarget ((allPieces (fun _ => 0)).getD 4 default) 4.2 0
      = ⟨0, 0, 0⟩ := by
    unfold explodeTarget explodeDist
    rw [hdir, hss, hinit, hlayer]
    unfold parentY
    exact Vec3.ext_iff.mpr ⟨by norm_num, by norm_num, by norm_num⟩
  have hzero : Vec3.dist (⟨0, 0, 0⟩ : Vec3) ⟨0, 0, 0⟩ = 0 := by
    unfold Vec3.dist Vec3.sub Vec3.length Vec3.lengthSq
    norm_num
  refine ⟨?_, hss, ?_⟩
  · rw [htarget, hinit, hzero]
  · rw [htarget, hinit, hzero, hss]
    norm_num

/-- C4 amended: the per-piece displacement is not bounded below by the
base spread (the x component is compressed by 0.7 and the y target
subtracts the slice offset, so a piece can move distance 0); what does
hold for every piece, every viewport width ≥ 0 and every random addend
≥ 0 is that the world-frame exploded position ends at distance at least
0.7 × base spread from the assembly origin. -/
theorem c4_explosion_spread_amended (rand : ℕ → Fin 6) (c : CubeData)
    (hc : c ∈ allPieces rand) (w r : ℝ) (hw : 0 ≤ w) (hr : 0 ≤ r) :
    0.7 * safeSpread w
      ≤ Vec3.dist (worldLift c (explodeTarget c w r)) ⟨0, 0, 0⟩ := by
  obtain ⟨n, x, y, z, hcm⟩ := mem_allPieces hc
  have hy0 : ((c.localPosition.2.1 : ℚ) : ℝ) = 0 := by
    rw [show c.localPosition.2.1 = (0 : ℚ) by rw [hcm]; rfl]
    norm_num
  have hss : 0 ≤ safeSpread w := le_min (by norm_num) (by nlinarith)
  have hed0 : 0 ≤ explodeDist w r := by
    unfold explodeDist
    nlinarith
  have hsub : ∀ v : Vec3, Vec3.sub v ⟨0, 0, 0⟩ = v := by
    intro v
    unfold Vec3.sub
    exact Vec3.ext_iff.mpr ⟨by ring, by ring, by ring⟩
  have hdist : Vec3.dist (worldLift c (explodeTarget c w r)) ⟨0, 0, 0⟩
      = Vec3.length (worldLift c (explodeTarget c w r)) := by
    unfold Vec3.dist
    rw [hsub]
  have hvec : worldLift c (explodeTarget c w r)
      = ⟨((c.localPosition.1 : ℚ) : ℝ)
            + (explodeDir (explodeRaw c)).x * (explodeDist w r * 0.7),
         (explodeDir (explodeRaw c)).y * explodeDist w r,
         ((c.localPosition.2.2 : ℚ) : ℝ)
            + (explodeDir (explodeRaw c)).z * explodeDist w r⟩ := by
    unfold worldLift explodeTarget initPos
    exact Vec3.ext_iff.mpr ⟨rfl, by rw [hy0]; ring, rfl⟩
  have hrawc : explodeRaw c
      = ⟨((c.localPosition.1 : ℚ) : ℝ), parentY c.layer,
         ((c.localPosition.2.2 : ℚ) : ℝ)⟩ := rfl
  rw [hdist, hvec, hrawc]
  have hmain := explode_origin_lower_bound ((c.localPosition.1 : ℚ) : ℝ)
    (parentY c.layer) ((c.localPosition.2.2 : ℚ) : ℝ) (explodeDist w r) hed0
  have hspread : safeSpread w ≤ explodeDist w r := by
    unfold explodeDist
    nlinarith
  linarith

/-- C4 amended witness: the counterexample piece itself (top centre,
width 4.2, random addend 0) still ends 1.05 ≥ 0.735 away from the origin
in the world frame. -/
theorem c4_explosion_spread_amended_witness :
    0.7 * safeSpread 4.2
      ≤ Vec3.dist
          (worldLift ((allPieces (fun _ => 0)).getD 4 default)
            (explodeTarget ((allPieces (fun _ => 0)).getD 4 default) 4.2 0))
          ⟨0, 0, 0⟩ := by
  have hlen : 4 < (allPieces (fun _ => 0)).length := by
    have : (allPieces (fun _ => 0)).length = 27 := rfl
    omega
  have hget : (allPieces (fun _ => 0)).getD 4 default
      = (allPieces (fun _ => 0)).get ⟨4, hlen⟩ := by
    rw [List.getD_eq_getElem?_getD, List.getElem?_eq_getElem hlen]
    rfl
  refine c4_explosion_spread_amended (fun _ => 0) _ ?_ 4.2 0 (by norm_num) (by norm_num)
  rw [hget]
  exact List.get_mem _ _ _

/-- C5: the (id, glyph) assignment is identical across any two random
colour streams, and the glyph-carrying ids are exactly the five fixed
centre-face ids with their fixed glyphs. -/
theorem c5_glyph_noninterference (r1 r2 : ℕ → Fin 6) :
    (allPieces r1).map (fun c => (c.id, c.iconType))
      = (allPieces r2).map (fun c => (c.id, c.iconType))
    ∧ (allPieces r1).filterMap (fun c => c.iconType.map fun i => (c.id, i))
      = [("0-1-0", .brain), ("-1-0-0", .circuit), ("0-0--1", .codeBrackets),
         ("0-0-1", .neuralNetwork), ("1-0-0", .dataFlow)] :=
  ⟨rfl, rfl⟩

/-- C3: the explode-to-drop boundary is a one-shot latch: the forward
handler only raises the active flag (velocities untouched); the backward
handler lowers it and zeroes every velocity slot, whatever its prior value. -/
theorem c3_physics_latch (s : LatchState) :
    (onLeave s).active = true
    ∧ (onLeave s).velocities = s.velocities
    ∧ (onEnterBack s).active = false
    ∧ (onEnterBack s).velocities
        = List.replicate s.velocities.length (⟨0, 0, 0⟩ : Vec3) := by
  refine ⟨rfl, rfl, rfl, ?_⟩
  simp [onEnterBack, List.map_const']

/-- C9: for any grid piece whose combined direction vector (slice-local
offset with the slice's vertical placement) is the zero vector, the
explosion direction falls back to the fixed upward direction (0,1,0). -/
theorem c9_degenerate_direction (rand : ℕ → Fin 6) :
    ∀ c ∈ allPieces rand, explodeRaw c = ⟨0, 0, 0⟩ →
      explodeDir (explodeRaw c) = ⟨0, 1, 0⟩ := by
  intro c _ h
  rw [h]
  unfold explodeDir Vec3.normalize
  have h0 : Vec3.length ⟨0, 0, 0⟩ = 0 := by
    simp [Vec3.length, Vec3.lengthSq]
  simp [h0]

/-- C9 witness: the centre piece of the middle slice (index 13 in
ref-collection order) has the degenerate combined vector and receives the
upward fallback direction. -/
theorem c9_degenerate_direction_witness :
    explodeDir (explodeRaw ((allPieces (fun _ => 0)).getD 13 default)) = ⟨0, 1, 0⟩ := by
  have hlen : 13 < (allPieces (fun _ => 0)).length := by
    have : (allPieces (fun _ => 0)).length = 27 := rfl
    omega
  have hget : (allPieces (fun _ => 0)).getD 13 default
      = (allPieces (fun _ => 0)).get ⟨13, hlen⟩ := by
    rw [List.getD_eq_getElem?_getD, List.getElem?_eq_getElem hlen]
    rfl
  apply c9_degenerate_direction (fun _ => 0) _ ?_ ?_
  · rw [hget]
    exact List.get_mem _ _ _
  · have hx : ((allPieces (fun _ => 0)).getD 13 default).localPosition.1
        = ((0 : ℤ) : ℚ) * gap := rfl
    have hz : ((allPieces (fun _ => 0)).getD 13 default).localPosition.2.2
        = ((0 : ℤ) : ℚ) * gap := rfl
    have hl : ((allPieces (fun _ => 0)).getD 13 default).layer = .mid := rfl
    unfold explodeRaw
    rw [hx, hz, hl]
    unfold parentY
    norm_num

/-- C10: the wall half-width is max(2, viewportWidth/2 − 1): never below
2, giving a strip of width at least 4, with walls symmetric about x = 0. -/
theorem c10_safe_boundary (vw x vx : ℝ) :
    safeBoundary (vw / 2) = max 2 (vw / 2 - 1)
    ∧ 2 ≤ safeBoundary (vw / 2)
    ∧ 4 ≤ safeBoundary (vw / 2) - (-(safeBoundary (vw / 2)))
    ∧ wallClamp (safeBoundary (vw / 2)) (-x) (-vx)
        = (-(wallClamp (safeBoundary (vw / 2)) x vx).1,
           -(wallClamp (safeBoundary (vw / 2)) x vx).2)
    ∧ (safeBoundary (vw / 2) < x →
        (wallClamp (safeBoundary (vw / 2)) x vx).1 = safeBoundary (vw / 2))
    ∧ (x < -(safeBoundary (vw / 2)) →
        (wallClamp (safeBoundary (vw / 2)) x vx).1 = -(safeBoundary (vw / 2)))
    ∧ (|x| ≤ safeBoundary (vw / 2) → wallClamp (safeBoundary (vw / 2)) x vx = (x, vx)) := by
  have hb : (2:ℝ) ≤ safeBoundary (vw / 2) := le_max_left _ _
  refine ⟨rfl, hb, by linarith, ?_, ?_, ?_, ?_⟩
  · by_cases hx1 : x > safeBoundary (vw / 2)
    · have h1 : ¬(-x > safeBoundary (vw / 2)) := by simp only [gt_iff_lt, not_lt]; linarith
      have h2 : -x < -safeBoundary (vw / 2) := by linarith
      unfold wallClamp
      rw [if_pos hx1, if_neg h1, if_pos h2, Prod.mk.injEq]
      exact ⟨by ring, by ring⟩
    · by_cases hx2 : x < -safeBoundary (vw / 2)
      · have h1 : -x > safeBoundary (vw / 2) := by
          simp only [gt_iff_lt]; linarith
        unfold wallClamp
        rw [if_pos h1, if_neg hx1, if_pos hx2, Prod.mk.injEq]
        exact ⟨by ring, by ring⟩
      · have hx1n : x ≤ safeBoundary (vw / 2) := not_lt.mp hx1
        have hx2n : -safeBoundary (vw / 2) ≤ x := not_lt.mp hx2
        have h1 : ¬(-x > safeBoundary (vw / 2)) := by
          simp only [gt_iff_lt, not_lt]; linarith
        have h2 : ¬(-x < -safeBoundary (vw / 2)) := by
          simp only [not_lt]; linarith
        unfold wallClamp
        rw [if_neg h1, if_neg h2, if_neg hx1, if_neg hx2, Prod.mk.injEq]
        exact ⟨by ring, by ring⟩
  · intro hx
    unfold wallClamp
    rw [if_pos hx]
  · intro hx
    unfold wallClamp
    rw [if_neg (by simp only [gt_iff_lt, not_lt]; linarith), if_pos hx]
  · intro hx
    rcases abs_le.mp hx with ⟨hlo, hhi⟩
    unfold wallClamp
    rw [if_neg (by simp only [gt_iff_lt, not_lt]; linarith),
      if_neg (by simp only [not_lt]; linarith)]

/-- C6: with no 2D context the texture generator returns the empty result
and reports through the error log; with a context but an unrecognised
glyph identifier it falls through to the default branch and draws a single
filled circle.  The embedding is a total function: no input throws. -/
theorem c6_icon_texture_fallback (ty color : String) :
    createIconTexture false ty color = (.empty, ["Canvas 2D context unavailable"])
    ∧ (ty ∉ knownIconTypes →
        createIconTexture true ty color
          = (.png [.clearRect 0 0 512 512, .strokeStyle color, .fillStyle color,
              .lineWidth 15, .lineCap "round", .lineJoin "round",
              .beginPath, .arc 256 256 50 0 2 false, .fill], [])) := by
  constructor
  · rfl
  · intro h
    simp only [knownIconTypes, List.mem_cons, List.not_mem_nil, or_false, not_or] at h
    obtain ⟨h1, h2, h3, h4, h5, h6⟩ := h
    norm_num [createIconTexture, h1, h2, h3, h4, h5, h6]

/-- C6 witness: the identifier "pyramid" is not a recognised glyph and
produces the single filled circle. -/
theorem c6_icon_texture_fallback_witness :
    ("pyramid" ∉ knownIconTypes)
    ∧ createIconTexture true "pyramid" "#ffffff"
        = (.png [.clearRect 0 0 512 512, .strokeStyle "#ffffff", .fillStyle "#ffffff",
            .lineWidth 15, .lineCap "round", .lineJoin "round",
            .beginPath, .arc 256 256 50 0 2 false, .fill], []) :=
  ⟨by decide, (c6_icon_texture_fallback "pyramid" "#ffffff").2 (by decide)⟩

/-- C2 counterexample: a single piece at x = 5 beyond the boundary 4
(viewport width 10) with velocity x = 1, pointer far away, δ = 0.1.  After
one full simulator step the x position is 3.92 — not the boundary — and
the x velocity magnitude is 0.768 = 0.8 × 0.96, not 0.8, because the same
frame still integrates the reflected velocity and applies friction after
the clamp. -/
theorem c2_counterexample :
    safeBoundary ((10 : ℝ) / 2) = 4
    ∧ (4 : ℝ) < 5
    ∧ (physicsFrame 1 (fun _ => ⟨⟨5, -5, 0⟩, ⟨1, 0, 0⟩⟩) none ⟨1000, 0, 0⟩ 0.1 0 10
        (fun _ _ => 0) (fun _ _ => 0) 0).pos.x = 3.92
    ∧ (physicsFrame 1 (fun _ => ⟨⟨5, -5, 0⟩, ⟨1, 0, 0⟩⟩) none ⟨1000, 0, 0⟩ 0.1 0 10
        (fun _ _ => 0) (fun _ _ => 0) 0).pos.x ≠ safeBoundary ((10 : ℝ) / 2)
    ∧ (physicsFrame 1 (fun _ => ⟨⟨5, -5, 0⟩, ⟨1, 0, 0⟩⟩) none ⟨1000, 0, 0⟩ 0.1 0 10
        (fun _ _ => 0) (fun _ _ => 0) 0).vel.x = -0.768
    ∧ |(physicsFrame 1 (fun _ => ⟨⟨5, -5, 0⟩, ⟨1, 0, 0⟩⟩) none ⟨1000, 0, 0⟩ 0.1 0 10
        (fun _ _ => 0) (fun _ _ => 0) 0).vel.x| ≠ 0.8 * |(1 : ℝ)| := by
  have hbval : safeBoundary ((10 : ℝ) / 2) = 4 := by
    unfold safeBoundary
    norm_num
  have hdist : Vec3.dist ⟨(5 : ℝ), floorY, 0⟩ ⟨(1000 : ℝ), floorY, 0⟩ = 995 := by
    unfold Vec3.dist Vec3.length Vec3.sub Vec3.lengthSq
    rw [show ((5 : ℝ) - 1000) ^ 2 + (floorY - floorY) ^ 2 + ((0 : ℝ) - 0) ^ 2
        = 995 ^ 2 by norm_num]
    exact Real.sqrt_sq (by norm_num)
  have hstep := stepFree_single_far ⟨⟨5, -5, 0⟩, ⟨1, 0, 0⟩⟩ ⟨1000, 0, 0⟩ 0.1 0 10
    (fun _ _ => 0) (fun _ _ => 0)
    (by rw [hdist]
        unfold repulsionRadius
        norm_num)
    (by rw [hbval]; norm_num)
  rw [hstep]
  refine ⟨hbval, by norm_num, ?_, ?_, ?_, ?_⟩
  · show safeBoundary ((10 : ℝ) / 2) + 1 * (-0.8) * 0.1 = 3.92
    rw [hbval]; norm_num
  · show safeBoundary ((10 : ℝ) / 2) + 1 * (-0.8) * 0.1 ≠ safeBoundary ((10 : ℝ) / 2)
    rw [hbval]; norm_num
  · show dragCoeff * (1 * (-0.8)) = -0.768
    unfold dragCoeff; norm_num
  · show |dragCoeff * (1 * (-0.8))| ≠ 0.8 * |(1 : ℝ)|
    unfold dragCoeff
    rw [show (0.96 : ℝ) * (1 * (-0.8)) = -0.768 by norm_num]
    rw [abs_of_nonpos (by norm_num), abs_one]
    norm_num

/-- C2 amended: driving a lone piece beyond the safe half-width with
positive x velocity (pointer out of repulsion range), one full simulator
step clamps x to the boundary, inverts and dampens the x velocity by 0.8
at the wall substep, and then still integrates one frame inward and
applies the 0.96 friction: the final x is boundary − 0.8·v·δ (at most the
boundary) and the final x velocity is −0.768·v (negative). -/
theorem c2_boundary_clamp_amended (p : Piece) (mw : Vec3) (δ t vw : ℝ)
    (jx jz : ℕ → ℕ → ℝ)
    (hm : repulsionRadius ≤ Vec3.dist ⟨p.pos.x, floorY, p.pos.z⟩ ⟨mw.x, floorY, mw.z⟩)
    (hb : safeBoundary (vw / 2) < p.pos.x)
    (hv : 0 < p.vel.x) (hδ : 0 ≤ δ) :
    (physicsFrame 1 (fun _ => p) none mw δ t vw jx jz 0).pos.x
        = safeBoundary (vw / 2) - 0.8 * p.vel.x * δ
    ∧ (physicsFrame 1 (fun _ => p) none mw δ t vw jx jz 0).vel.x
        = -(0.768 * p.vel.x)
    ∧ (physicsFrame 1 (fun _ => p) none mw δ t vw jx jz 0).vel.x < 0
    ∧ (physicsFrame 1 (fun _ => p) none mw δ t vw jx jz 0).pos.x
        ≤ safeBoundary (vw / 2) := by
  have hstep := stepFree_single_far p mw δ t vw jx jz hm hb
  rw [hstep]
  refine ⟨?_, ?_, ?_, ?_⟩
  · show safeBoundary (vw / 2) + p.vel.x * (-0.8) * δ
        = safeBoundary (vw / 2) - 0.8 * p.vel.x * δ
    ring
  · show dragCoeff * (p.vel.x * (-0.8)) = -(0.768 * p.vel.x)
    unfold dragCoeff
    ring_nf
  · show dragCoeff * (p.vel.x * (-0.8)) < 0
    unfold dragCoeff
    nlinarith
  · show safeBoundary (vw / 2) + p.vel.x * (-0.8) * δ ≤ safeBoundary (vw / 2)
    nlinarith

/-- C2 amended witness: the concrete run of the counterexample input
through the amended law. -/
theorem c2_boundary_clamp_amended_witness :
    (physicsFrame 1 (fun _ => ⟨⟨5, -5, 0⟩, ⟨1, 0, 0⟩⟩) none ⟨1000, 0, 0⟩ 0.1 0 10
        (fun _ _ => 0) (fun _ _ => 0) 0).pos.x
      = safeBoundary ((10 : ℝ) / 2) - 0.8 * 1 * 0.1 := by
  have hdist : Vec3.dist ⟨(5 : ℝ), floorY, 0⟩ ⟨(1000 : ℝ), floorY, 0⟩ = 995 := by
    unfold Vec3.dist Vec3.length Vec3.sub Vec3.lengthSq
    rw [show ((5 : ℝ) - 1000) ^ 2 + (floorY - floorY) ^ 2 + ((0 : ℝ) - 0) ^ 2
        = 995 ^ 2 by norm_num]
    exact Real.sqrt_sq (by norm_num)
  exact (c2_boundary_clamp_amended ⟨⟨5, -5, 0⟩, ⟨1, 0, 0⟩⟩ ⟨1000, 0, 0⟩ 0.1 0 10
    (fun _ _ => 0) (fun _ _ => 0)
    (by rw [hdist]
        unfold repulsionRadius
        norm_num)
    (by unfold safeBoundary; norm_num)
    (by norm_num) (by norm_num)).1

/-- C7: when piece i is dragged, the frame dispatch routes it exclusively
through the drag branch; that branch leaves piece i with exactly the
lerped position and the displacement-derived velocity (no repulsion,
collision, wall clamp, integration or friction applied to it), gives every
other piece within the fixed minimum distance exactly the outward
time-scaled impulse (and leaves the rest untouched), and while any piece
is dragged the pointer-repulsion rule is inert for every piece. -/
theorem c7_drag_exclusive (n i : ℕ) (a : ℕ → Piece) (drag : Option ℕ)
    (mouseFloor : Vec3) (δ t w : ℝ) (jx jz : ℕ → ℕ → ℝ) (hdrag : drag = some i) :
    processIndex n drag mouseFloor δ t w jx jz a i = stepDragged n i a mouseFloor δ
    ∧ stepDragged n i a mouseFloor δ i
        = ⟨dragPos (a i) mouseFloor, dragVel (a i) mouseFloor⟩
    ∧ (∀ j, j < n → j ≠ i →
        stepDragged n i a mouseFloor δ j
          = if Vec3.dist (dragPos (a i) mouseFloor) (a j).pos < dragPushMinDist then
              ⟨(a j).pos,
               Vec3.add (a j).vel
                 (Vec3.smul ((dragPushMinDist
                     - Vec3.dist (dragPos (a i) mouseFloor) (a j).pos) * 30.0 * δ)
                   (Vec3.normalize (Vec3.sub (a j).pos (dragPos (a i) mouseFloor))))⟩
            else a j)
    ∧ (∀ (mf mo v : Vec3) (δ2 : ℝ), repulsionVel drag mf mo v δ2 = v) := by
  refine ⟨?_, ?_, ?_, ?_⟩
  · simp [processIndex, hdrag]
  · unfold stepDragged
    exact Function.update_same _ _ _
  · intro j hjn hji
    unfold stepDragged
    rw [Function.update_noteq hji]
    have h3 : ((List.range n).foldl (fun acc j =>
        if j = i then acc
        else
          if Vec3.dist (dragPos (a i) mouseFloor) (acc j).pos < dragPushMinDist then
            Function.update acc j
              ⟨(acc j).pos,
               Vec3.add (acc j).vel
                 (Vec3.smul
                   ((dragPushMinDist - Vec3.dist (dragPos (a i) mouseFloor) (acc j).pos)
                     * 30.0 * δ)
                   (Vec3.normalize (Vec3.sub (acc j).pos (dragPos (a i) mouseFloor))))⟩
          else acc) a) j
      = if j ∈ List.range n ∧ j ≠ i then
          (if Vec3.dist (dragPos (a i) mouseFloor) (a j).pos < dragPushMinDist then
            ⟨(a j).pos,
             Vec3.add (a j).vel
               (Vec3.smul ((dragPushMinDist
                   - Vec3.dist (dragPos (a i) mouseFloor) (a j).pos) * 30.0 * δ)
                 (Vec3.normalize (Vec3.sub (a j).pos (dragPos (a i) mouseFloor))))⟩
          else a j)
        else a j :=
      foldl_push_apply i
        (fun q => Vec3.dist (dragPos (a i) mouseFloor) q.pos < dragPushMinDist)
        (fun q => ⟨q.pos,
          Vec3.add q.vel
            (Vec3.smul ((dragPushMinDist
                - Vec3.dist (dragPos (a i) mouseFloor) q.pos) * 30.0 * δ)
              (Vec3.normalize (Vec3.sub q.pos (dragPos (a i) mouseFloor))))⟩)
        (List.range n) (List.nodup_range n) a j
    rw [if_pos ⟨List.mem_range.mpr hjn, hji⟩] at h3
    exact h3
  · intro mf mo v δ2
    rw [hdrag]
    simp [repulsionVel]

/-- C7 witness: with piece 0 of a two-piece system dragged (pointer floor
point at the origin), the drag branch puts piece 0 at the lerped lifted
target with the throw velocity. -/
theorem c7_drag_exclusive_witness :
    stepDragged 2 0
      (fun k => if k = 0 then ⟨⟨0, -5, 0⟩, ⟨0, 0, 0⟩⟩ else ⟨⟨10, -5, 0⟩, ⟨0, 0, 0⟩⟩)
      ⟨0, -5, 0⟩ 1 0
      = ⟨⟨0, -4.9, 0⟩, ⟨0, 5, 0⟩⟩ := by
  have h := (c7_drag_exclusive 2 0
    (fun k => if k = 0 then ⟨⟨0, -5, 0⟩, ⟨0, 0, 0⟩⟩ else ⟨⟨10, -5, 0⟩, ⟨0, 0, 0⟩⟩)
    (some 0) ⟨0, -5, 0⟩ 1 0 0 (fun _ _ => 0) (fun _ _ => 0) rfl).2.1
  rw [h]
  unfold dragPos dragVel dragTarget Vec3.lerp Vec3.smul Vec3.sub floorY
  norm_num [Piece.mk.injEq, Vec3.mk.injEq]

/-- C8: every transform channel written by phase 1 (tl1) or phase 2 (tl2)
is a pure function of scroll progress: at progress 0 it reads back its
recorded start value exactly, so driving progress 0 → 1 → 0 — sampled at
the fractions 0, ¼, ½, ¾, 1, ½, 0 — returns every channel to its start. -/
theorem c8_phase_reversibility (isMobile : Bool)
    (rotS posS sclS topRotS midRotS botRotS gPosS gSclS gRotS : Vec3)
    (c : CubeData) (cPosS cRotS cRotT : Vec3) (w r : ℝ) :
    ∀ tw ∈ tl1Tweens isMobile rotS posS sclS
        ++ tl2SliceResetTweens topRotS midRotS botRotS
        ++ tl2GroupTweens isMobile gPosS gSclS gRotS
        ++ tl2CubeTweens c cPosS cRotS cRotT w r,
      tweenAt tw 0 = tw.start
      ∧ ([(0:ℝ), 0.25, 0.5, 0.75, 1, 0.5, 0].map (tweenAt tw)).getLast?
          = some tw.start := by
  intro tw htw
  have hpos : tw.pos = 0 := by
    rcases List.mem_append.mp htw with h | h
    · rcases List.mem_append.mp h with h2 | h2
      · rcases List.mem_append.mp h2 with h3 | h3
        · exact tl1Tweens_pos_zero _ _ _ _ tw h3
        · exact tl2SliceResetTweens_pos_zero _ _ _ tw h3
      · exact tl2GroupTweens_pos_zero _ _ _ _ tw h2
    · exact tl2CubeTweens_pos_zero _ _ _ _ _ _ tw h
  refine ⟨tweenAt_pos_zero hpos, ?_⟩
  have hlast : ([(0:ℝ), 0.25, 0.5, 0.75, 1, 0.5, 0].map (tweenAt tw)).getLast?
      = some (tweenAt tw 0) := rfl
  rw [hlast, tweenAt_pos_zero hpos]

/-- C8 witness: the x-rotation channel of tl1, with recorded start 1,
reads back 1 at progress 0 and after the 0→1→0 sampling sweep. -/
theorem c8_phase_reversibility_witness :
    tweenAt ⟨0, 1, .power2InOut, 1, 0.2⟩ 0 = 1
    ∧ ([(0:ℝ), 0.25, 0.5, 0.75, 1, 0.5, 0].map
        (tweenAt ⟨0, 1, .power2InOut, 1, 0.2⟩)).getLast? = some 1 :=
  c8_phase_reversibility false ⟨1, 2, 3⟩ ⟨0, 0, 0⟩ ⟨0, 0, 0⟩ ⟨0, 0, 0⟩ ⟨0, 0, 0⟩
    ⟨0, 0, 0⟩ ⟨0, 0, 0⟩ ⟨0, 0, 0⟩ ⟨0, 0, 0⟩ default ⟨0, 0, 0⟩ ⟨0, 0, 0⟩ ⟨0, 0, 0⟩ 0 0
    ⟨0, 1, .power2InOut, 1, 0.2⟩
    (List.mem_append_left _ (List.mem_append_left _ (List.mem_append_left _
      (List.mem_cons_self _ _))))

/-- C10 witness: at viewport width 10 a piece at x = 5 with velocity 1 is
clamped to the boundary 4 with inverted, damped velocity. -/
theorem c10_safe_boundary_witness :
    (wallClamp (safeBoundary (10 / 2)) 5 1).1 = safeBoundary (10 / 2)
    ∧ safeBoundary (10 / 2) = 4 := by
  constructor
  · exact (c10_safe_boundary 10 5 1).2.2.2.2.1 (by norm_num [safeBoundary])
  · norm_num [safeBoundary]

end DramaCube
